import Mathlib

/-!
Verification development for the Jenkins client (`jenkins.go`).

The Go package is one file: a `Client` with the operations `BuildJob`,
`getBuildURL`, `BuildStatus` and the helper `request`.  The embedding below
follows that file function by function.

* Go strings are modelled by `String`, a sequence of characters.  The
  separators the client works with (`/`, `/job/`) are ASCII, which no
  multi-byte UTF-8 sequence contains, so cutting and counting by character
  agrees with the byte-wise Go functions.
* An operation can end in three ways: it returns, it calls `log.Fatal`
  (through `logError`, which exits the process), or it raises a run-time
  panic (nil pointer dereference, index out of range).  `Outcome` records
  which.
* The requests handed to the HTTP transport are recorded in order (`Run.sent`).
* What the Go standard library decides (whether `http.NewRequest` accepts a
  URL, how `json.Unmarshal` decodes a body) is a parameter, `Lib`.  The
  instance `exampleLib`, with a model of `encoding/json` for the two response
  structs, is used to evaluate the operations on concrete bodies.
-/

namespace Jenkins

/-! ## Data model -/

/-- Go `error` values are represented by their message. -/
abbrev Error := String

/-- The type `BuildStatus` with its three constants, in `iota` order. -/
inductive BuildStatus where
  | BuildFail
  | BuildSuccess
  | BuildUnknown
  deriving DecidableEq

/-- The type `BuildState` with its two constants, in `iota` order. -/
inductive BuildState where
  | BuildRunning
  | BuildComplete
  deriving DecidableEq

/-- The part of `*http.Request` the client sets: method, URL as passed to
`http.NewRequest`, body (`none` is the nil reader) and the `Authorization`
header. -/
structure Request where
  Method : String
  URL : String
  Body : Option String
  Authorization : Option String
  deriving DecidableEq

/-- The result of reading a response body to its end with `ioutil.ReadAll`. -/
inductive BodyRead where
  | data (bytes : String)
  | failed (err : Error)
  deriving DecidableEq

/-- The part of `*http.Response` the client can look at. `Header` is the Go
map from canonical header name to its list of values. -/
structure Response where
  StatusCode : Nat
  Header : List (String × List String)
  Body : BodyRead
  deriving DecidableEq

/-- Result of a call that returns `(value, error)`. -/
inductive Result (α : Type) where
  | ok (a : α)
  | err (e : Error)
  deriving DecidableEq

/-- The transport `*http.Client`: `Do` answers a request with a response or a
transport-level error; a response of any status code is a response.  Within
one operation the client never sends the same request twice, so a function of
the request covers every server behaviour. -/
structure HTTPClient where
  Do : Request → Result Response

/-- The struct `Client`. -/
structure Client where
  baseURL : String
  username : String
  token : String
  httpClient : HTTPClient

/-- The struct `executable`. -/
structure executable where
  URL : String
  deriving DecidableEq

/-- The struct `queueItemResponse`; the pointer field is an `Option`. -/
structure queueItemResponse where
  Executable : Option executable
  deriving DecidableEq

/-- The struct `buildResponse`; both fields are pointers. -/
structure buildResponse where
  Building : Option Bool
  Result : Option String
  deriving DecidableEq

/-- Run-time panics the client can raise. -/
inductive RuntimePanic where
  | nilDereference
  | indexOutOfRange
  deriving DecidableEq

/-- How a call ends: a returned value, `log.Fatal` (the process exits), or
a run-time panic. -/
inductive Outcome (α : Type) where
  | ret (a : α)
  | fatal (e : Error)
  | panic (p : RuntimePanic)
  deriving DecidableEq

/-- A call's effects: the requests it handed to the transport, in order, and
how it ended. -/
structure Run (α : Type) where
  sent : List Request
  out : Outcome α
  deriving DecidableEq

/-- Sequencing: the second part runs only when the first returned. -/
def Run.bind {α β : Type} (x : Run α) (f : α → Run β) : Run β :=
  match x.out with
  | .ret a => ⟨x.sent ++ (f a).sent, (f a).out⟩
  | .fatal e => ⟨x.sent, .fatal e⟩
  | .panic p => ⟨x.sent, .panic p⟩

instance : Monad Run where
  pure a := ⟨[], .ret a⟩
  bind := Run.bind

/-- What the Go standard library decides for the client.  The theorems about
the client hold for every such library. -/
structure Lib where
  /-- The error of `http.NewRequest(method, URL, nil)`, if any (a method that
  is no token, a URL that does not parse). -/
  NewRequest : String → String → Option Error
  /-- The call `json.Unmarshal(body, &queueItemResponse{})`. -/
  UnmarshalQueueItem : String → Result queueItemResponse
  /-- The call `json.Unmarshal(body, &buildResponse{})`. -/
  UnmarshalBuild : String → Result buildResponse

/-! ## The Go library calls the client makes -/

/-- Splitting at a one-character separator, on character lists. -/
def splitChars (sep : Char) : List Char → List (List Char)
  | [] => [[]]
  | c :: cs =>
    if c = sep then [] :: splitChars sep cs
    else
      match splitChars sep cs with
      | seg :: rest => (c :: seg) :: rest
      | [] => [[c]]

/-- The call `strings.Split(s, sep)` for a one-character separator: the pieces
of `s` between the separators, in order; never the empty list. -/
def Split (s : String) (sep : Char) : List String :=
  (splitChars sep s.data).map String.mk

/-- The call `strings.Join(elems, sep)`. -/
def Join : List String → String → String
  | [], _ => ""
  | [a], _ => a
  | a :: b :: rest, sep => a ++ sep ++ Join (b :: rest) sep

/-- Counting non-overlapping occurrences of a non-empty pattern from the left;
`skip` is the number of characters still covered by the last match. -/
def countFrom (pat : List Char) : Nat → List Char → Nat
  | _, [] => 0
  | skip + 1, _ :: cs => countFrom pat skip cs
  | 0, c :: cs =>
    if pat.isPrefixOf (c :: cs) then 1 + countFrom pat (pat.length - 1) cs
    else countFrom pat 0 cs

/-- The call `strings.Count(s, substr)`: the number of non-overlapping
instances of `substr` in `s`; for an empty `substr`, one more than the number
of characters. -/
def Count (s substr : String) : Nat :=
  if substr.data = [] then s.data.length + 1 else countFrom substr.data 0 s.data

/-- The number of positions of `s` at which `pat` starts (occurrences that
may overlap). -/
def occurrences (pat : List Char) : List Char → Nat
  | [] => 0
  | c :: cs => (if pat.isPrefixOf (c :: cs) then 1 else 0) + occurrences pat cs

/-- The alphabet of `base64.StdEncoding`. -/
def base64Alphabet : List Char :=
  "ABCDEFGHIJKLMNOPQRSTUVWXYZabcdefghijklmnopqrstuvwxyz0123456789+/".data

/-- The digit of a six-bit value. -/
def base64Digit (n : Nat) : Char := base64Alphabet.getD n 'A'

/-- Standard base64 with padding, on a list of bytes. -/
def base64Bytes : List Nat → List Char
  | [] => []
  | [a] => [base64Digit (a / 4), base64Digit (a % 4 * 16), '=', '=']
  | [a, b] =>
    [base64Digit (a / 4), base64Digit (a % 4 * 16 + b / 16), base64Digit (b % 16 * 4), '=']
  | a :: b :: c :: rest =>
    base64Digit (a / 4) :: base64Digit (a % 4 * 16 + b / 16)
      :: base64Digit (b % 16 * 4 + c / 64) :: base64Digit (c % 64) :: base64Bytes rest

/-- The bytes of a string (UTF-8). -/
def utf8Bytes (s : String) : List Nat :=
  s.data.flatMap fun c => (String.utf8EncodeChar c).map UInt8.toNat

/-- The call `base64.StdEncoding.EncodeToString([]byte(s))`. -/
def base64StdEncode (s : String) : String := String.mk (base64Bytes (utf8Bytes s))

/-- The helper `basicAuth` of `net/http`: the base64 of `username:password`. -/
def basicAuth (username password : String) : String :=
  base64StdEncode (username ++ ":" ++ password)

/-- The method `(*http.Request).SetBasicAuth`: sets the `Authorization` header
to `Basic` followed by the encoded credentials. -/
def Request.SetBasicAuth (r : Request) (username password : String) : Request :=
  { r with Authorization := some ("Basic " ++ basicAuth username password) }

/-- Indexing the header map, `h[key]`: the values stored under `key`, the nil
slice when there are none. -/
def headerIndex (h : List (String × List String)) (key : String) : List String :=
  (h.lookup key).getD []

/-- Indexing a slice, `xs[i]`: panics when `i` is out of range. -/
def sliceIndex {α : Type} (xs : List α) (i : Nat) : Run α :=
  match xs.get? i with
  | some a => pure a
  | none => ⟨[], .panic .indexOutOfRange⟩

/-- Dereferencing a pointer: panics on nil. -/
def deref {α : Type} (p : Option α) : Run α :=
  match p with
  | some a => pure a
  | none => ⟨[], .panic .nilDereference⟩

/-- The call `ioutil.ReadAll(resp.Body)` as a `(value, error)` result. -/
def ReadAll (b : BodyRead) : Result String :=
  match b with
  | .data bytes => .ok bytes
  | .failed e => .err e

/-! ## A model of `encoding/json` for the two response structs

`json.Unmarshal` first checks that the whole input is one JSON text, then
stores the value into the struct.  The messages of the errors are approximate;
the client only tests them against nil. -/

/-- JSON values; a number keeps its literal. -/
inductive JSON where
  | null
  | bool (b : Bool)
  | number (literal : String)
  | string (s : String)
  | array (items : List JSON)
  | object (members : List (String × JSON))

/-- The deepest nesting of arrays and objects the decoder accepts. -/
def maxNestingDepth : Nat := 10000

/-- JSON white space. -/
def isSpace (c : Char) : Bool := c = ' ' || c = '\t' || c = '\r' || c = '\n'

/-- Dropping leading white space. -/
def skipSpace : List Char → List Char
  | [] => []
  | c :: cs => if isSpace c then skipSpace cs else c :: cs

/-- The value of a hexadecimal digit. -/
def hexDigit (c : Char) : Option Nat :=
  if '0' ≤ c ∧ c ≤ '9' then some (c.toNat - '0'.toNat)
  else if 'a' ≤ c ∧ c ≤ 'f' then some (c.toNat - 'a'.toNat + 10)
  else if 'A' ≤ c ∧ c ≤ 'F' then some (c.toNat - 'A'.toNat + 10)
  else none

/-- Four hexadecimal digits at the start of the input. -/
def hex4 : List Char → Option (Nat × List Char)
  | a :: b :: c :: d :: rest =>
    match hexDigit a, hexDigit b, hexDigit c, hexDigit d with
    | some a, some b, some c, some d => some (((a * 16 + b) * 16 + c) * 16 + d, rest)
    | _, _, _, _ => none
  | _ => none

/-- The low half of a surrogate pair written as a second `\u` escape. -/
def lowSurrogate : List Char → Option (Nat × List Char)
  | '\\' :: 'u' :: rest =>
    match hex4 rest with
    | some (lo, rest) => if 0xDC00 ≤ lo ∧ lo < 0xE000 then some (lo, rest) else none
    | none => none
  | _ => none

/-- The rest of a string literal after its opening quote: the decoded text and
the input after the closing quote. -/
def parseString : Nat → List Char → List Char → Option (String × List Char)
  | 0, _, _ => none
  | _ + 1, [], _ => none
  | fuel + 1, c :: cs, acc =>
    if c = '"' then some (String.mk acc.reverse, cs)
    else if c.toNat < 0x20 then none
    else if c = '\\' then
      match cs with
      | '"' :: rest => parseString fuel rest ('"' :: acc)
      | '\\' :: rest => parseString fuel rest ('\\' :: acc)
      | '/' :: rest => parseString fuel rest ('/' :: acc)
      | 'b' :: rest => parseString fuel rest (Char.ofNat 8 :: acc)
      | 'f' :: rest => parseString fuel rest (Char.ofNat 12 :: acc)
      | 'n' :: rest => parseString fuel rest ('\n' :: acc)
      | 'r' :: rest => parseString fuel rest ('\r' :: acc)
      | 't' :: rest => parseString fuel rest ('\t' :: acc)
      | 'u' :: rest =>
        match hex4 rest with
        | none => none
        | some (hi, rest) =>
          if 0xD800 ≤ hi ∧ hi < 0xE000 then
            match (if hi < 0xDC00 then lowSurrogate rest else none) with
            | some (lo, rest) =>
              parseString fuel rest
                (Char.ofNat ((hi - 0xD800) * 0x400 + (lo - 0xDC00) + 0x10000) :: acc)
            | none => parseString fuel rest (Char.ofNat 0xFFFD :: acc)
          else parseString fuel rest (Char.ofNat hi :: acc)
      | _ => none
    else parseString fuel cs (c :: acc)

/-- Splitting off the leading decimal digits. -/
def spanDigits : List Char → List Char × List Char
  | [] => ([], [])
  | c :: cs =>
    if c.isDigit then ((spanDigits cs).1.cons c, (spanDigits cs).2) else ([], c :: cs)

/-- A number literal at the start of the input: optional minus, integer part
without a leading zero, optional fraction, optional exponent. -/
def parseNumber (cs : List Char) : Option (String × List Char) :=
  let (sign, cs) := match cs with
    | '-' :: rest => (['-'], rest)
    | _ => ([], cs)
  let intPart : Option (List Char × List Char) := match cs with
    | '0' :: rest => some (['0'], rest)
    | _ => match spanDigits cs with
      | ([], _) => none
      | (ds, rest) => some (ds, rest)
  match intPart with
  | none => none
  | some (ds, cs) =>
    let frac : Option (List Char × List Char) := match cs with
      | '.' :: rest => match spanDigits rest with
        | ([], _) => none
        | (fs, rest) => some ('.' :: fs, rest)
      | _ => some ([], cs)
    match frac with
    | none => none
    | some (fs, cs) =>
      let exp : Option (List Char × List Char) := match cs with
        | e :: rest =>
          if e = 'e' ∨ e = 'E' then
            let (esign, rest) := match rest with
              | '+' :: r => (['+'], r)
              | '-' :: r => (['-'], r)
              | _ => ([], rest)
            match spanDigits rest with
            | ([], _) => none
            | (es, rest) => some (e :: esign ++ es, rest)
          else some ([], cs)
        | [] => some ([], cs)
      match exp with
      | none => none
      | some (es, cs) => some (String.mk (sign ++ ds ++ fs ++ es), cs)

mutual
/-- One JSON value at the start of the input (white space already skipped),
inside `depth` open arrays and objects. -/
def parseValue : Nat → Nat → List Char → Option (JSON × List Char)
  | 0, _, _ => none
  | fuel + 1, depth, cs =>
    match cs with
    | '{' :: rest =>
      if maxNestingDepth ≤ depth then none
      else
        match skipSpace rest with
        | '}' :: rest => some (.object [], rest)
        | rest => parseMembers fuel (depth + 1) rest []
    | '[' :: rest =>
      if maxNestingDepth ≤ depth then none
      else
        match skipSpace rest with
        | ']' :: rest => some (.array [], rest)
        | rest => parseItems fuel (depth + 1) rest []
    | '"' :: rest =>
      match parseString rest.length.succ rest [] with
      | some (s, rest) => some (.string s, rest)
      | none => none
    | 't' :: 'r' :: 'u' :: 'e' :: rest => some (.bool true, rest)
    | 'f' :: 'a' :: 'l' :: 's' :: 'e' :: rest => some (.bool false, rest)
    | 'n' :: 'u' :: 'l' :: 'l' :: rest => some (.null, rest)
    | _ =>
      match parseNumber cs with
      | some (lit, rest) => some (.number lit, rest)
      | none => none
/-- The members of an object from a key on, up to the closing brace. -/
def parseMembers : Nat → Nat → List Char → List (String × JSON) → Option (JSON × List Char)
  | 0, _, _, _ => none
  | fuel + 1, depth, cs, acc =>
    match cs with
    | '"' :: rest =>
      match parseString rest.length.succ rest [] with
      | none => none
      | some (key, rest) =>
        match skipSpace rest with
        | ':' :: rest =>
          match parseValue fuel depth (skipSpace rest) with
          | none => none
          | some (v, rest) =>
            match skipSpace rest with
            | ',' :: rest => parseMembers fuel depth (skipSpace rest) (acc ++ [(key, v)])
            | '}' :: rest => some (.object (acc ++ [(key, v)]), rest)
            | _ => none
        | _ => none
    | _ => none
/-- The items of an array from an item on, up to the closing bracket. -/
def parseItems : Nat → Nat → List Char → List JSON → Option (JSON × List Char)
  | 0, _, _, _ => none
  | fuel + 1, depth, cs, acc =>
    match parseValue fuel depth cs with
    | none => none
    | some (v, rest) =>
      match skipSpace rest with
      | ',' :: rest => parseItems fuel depth (skipSpace rest) (acc ++ [v])
      | ']' :: rest => some (.array (acc ++ [v]), rest)
      | _ => none
end

/-- The syntax check and scan of `json.Unmarshal`: the input is exactly one
JSON value, surrounded by optional white space.  The recursion is bounded by
a fuel of one more than the length of the input: every step that takes fuel
consumes a character or enters an array whose closing bracket is still to
come. -/
def parseJSON (body : String) : Option JSON :=
  match parseValue body.data.length.succ 0 (skipSpace body.data) with
  | some (v, rest) => if skipSpace rest = [] then some v else none
  | none => none

/-- Case folding of one character of an object key: ASCII letters to upper
case, and the two non-ASCII characters that fold to an ASCII letter. -/
def foldChar (c : Char) : Char :=
  if c = Char.ofNat 0x17F then 'S'
  else if c = Char.ofNat 0x212A then 'K'
  else c.toUpper

/-- Whether an object key selects the struct field with JSON name `name`:
the decoder matches keys without regard to case. -/
def keyMatches (name key : String) : Bool :=
  key.data.map foldChar = name.data.map foldChar

/-- The JSON kind named in a type error. -/
def JSON.kind : JSON → String
  | .null => "null"
  | .bool _ => "bool"
  | .number _ => "number"
  | .string _ => "string"
  | .array _ => "array"
  | .object _ => "object"

/-- The error for a JSON value that does not fit the Go type of its target. -/
def typeError (v : JSON) (target : String) : Error :=
  "json: cannot unmarshal " ++ v.kind ++ " into Go " ++ target

/-- Storing the members of a JSON object into an `executable`, in order. -/
def storeExecutable : List (String × JSON) → executable → Result executable
  | [], e => .ok e
  | (key, v) :: rest, e =>
    if keyMatches "url" key then
      match v with
      | .string s => storeExecutable rest { e with URL := s }
      | .null => storeExecutable rest e
      | _ => .err (typeError v "struct field executable.url of type string")
    else storeExecutable rest e

/-- Storing the members of a JSON object into a `queueItemResponse`, in
order: `null` sets the pointer to nil, an object allocates the `executable`
if the pointer is nil and decodes into it. -/
def storeQueueItem : List (String × JSON) → queueItemResponse → Result queueItemResponse
  | [], q => .ok q
  | (key, v) :: rest, q =>
    if keyMatches "executable" key then
      match v with
      | .null => storeQueueItem rest { q with Executable := none }
      | .object ms =>
        match storeExecutable ms (q.Executable.getD { URL := "" }) with
        | .ok e => storeQueueItem rest { q with Executable := some e }
        | .err err => .err err
      | _ => .err (typeError v "struct field queueItemResponse.executable of type jenkins.executable")
    else storeQueueItem rest q

/-- Storing the members of a JSON object into a `buildResponse`, in order. -/
def storeBuild : List (String × JSON) → buildResponse → Result buildResponse
  | [], b => .ok b
  | (key, v) :: rest, b =>
    if keyMatches "building" key then
      match v with
      | .null => storeBuild rest { b with Building := none }
      | .bool x => storeBuild rest { b with Building := some x }
      | _ => .err (typeError v "struct field buildResponse.building of type bool")
    else if keyMatches "result" key then
      match v with
      | .null => storeBuild rest { b with Result := none }
      | .string s => storeBuild rest { b with Result := some s }
      | _ => .err (typeError v "struct field buildResponse.result of type string")
    else storeBuild rest b

/-- The call `json.Unmarshal(body, &queueItemResponse{})` in the model. -/
def unmarshalQueueItem (body : String) : Result queueItemResponse :=
  match parseJSON body with
  | none => .err "json: syntax error"
  | some (.object ms) => storeQueueItem ms { Executable := none }
  | some .null => .ok { Executable := none }
  | some v => .err (typeError v "value of type jenkins.queueItemResponse")

/-- The call `json.Unmarshal(body, &buildResponse{})` in the model. -/
def unmarshalBuild (body : String) : Result buildResponse :=
  match parseJSON body with
  | none => .err "json: syntax error"
  | some (.object ms) => storeBuild ms { Building := none, Result := none }
  | some .null => .ok { Building := none, Result := none }
  | some v => .err (typeError v "value of type jenkins.buildResponse")

/-- A library instance for evaluating the client on concrete inputs: request
lines are accepted (the URLs used below are well-formed) and bodies are decoded
by the JSON model. -/
def exampleLib : Lib :=
  { NewRequest := fun _ _ => none
    UnmarshalQueueItem := unmarshalQueueItem
    UnmarshalBuild := unmarshalBuild }

/-! ## The client -/

/-- The function `logError`, applied to the error of a `(value, error)` pair:
`log.Fatal` when the error is not nil, otherwise execution goes on with the
value. -/
def logError {α : Type} (r : Result α) : Run α :=
  match r with
  | .err e => ⟨[], .fatal e⟩
  | .ok a => pure a

/-- The function `NewClient`; `defaultHTTPClient` is the package variable used
when no transport is given. -/
def NewClient (defaultHTTPClient : HTTPClient) (baseURL username token : String)
    (httpClient : Option HTTPClient) : Client :=
  let h := match httpClient with
    | none => defaultHTTPClient
    | some h => h
  { baseURL := baseURL, username := username, token := token, httpClient := h }

/-- The method `(*Client).request`. -/
def Client.request (L : Lib) (c : Client) (method URL : String) (body : Option String) :
    Run (Result Response) :=
  match L.NewRequest method URL with
  | some err => pure (.err err)
  | none =>
    let req : Request := { Method := method, URL := URL, Body := body, Authorization := none }
    let req := req.SetBasicAuth c.username c.token
    ⟨[req], .ret (c.httpClient.Do req)⟩

/-- The method `(*Client).getBuildURL`. -/
def Client.getBuildURL (L : Lib) (c : Client) (itemURL : String) : Run String := do
  let url := itemURL ++ "/api/json"
  let resp ← logError (← c.request L "GET" url none)
  let body ← logError (ReadAll resp.Body)
  let queueItemResponse ← logError (L.UnmarshalQueueItem body)
  let exe ← deref queueItemResponse.Executable
  let buidURL := exe.URL
  return buidURL

/-- The trigger URL built at the start of `BuildJob`,
`fmt.Sprintf("%s/job/%s/build", c.baseURL, strings.Join(strings.Split(jobPath, "/"), "/job/"))`. -/
def Client.apiJobPath (c : Client) (jobPath : String) : String :=
  c.baseURL ++ "/job/" ++ Join (Split jobPath '/') "/job/" ++ "/build"

/-- The method `(*Client).BuildJob`. -/
def Client.BuildJob (L : Lib) (c : Client) (jobPath : String) : Run String := do
  let apiJobPath := c.apiJobPath jobPath
  let resp ← logError (← c.request L "POST" apiJobPath none)
  let itemURL ← sliceIndex (headerIndex resp.Header "Location") 0
  c.getBuildURL L itemURL

/-- The method `(*Client).BuildStatus`. -/
def Client.BuildStatus (L : Lib) (c : Client) (buildURL : String) :
    Run (BuildState × BuildStatus) := do
  let url := buildURL ++ "/api/json"
  let resp ← logError (← c.request L "GET" url none)
  let body ← logError (ReadAll resp.Body)
  let buildResponse ← logError (L.UnmarshalBuild body)
  let building ← deref buildResponse.Building
  if building then
    return (.BuildRunning, .BuildUnknown)
  return (.BuildComplete, .BuildSuccess)

/-! ## The claims' reference formulas and concrete servers -/

/-- The separator `/job/` as characters. -/
def jobPat : List Char := ['/', 'j', 'o', 'b', '/']

/-- The trigger URL as the specification writes it: the base URL, then
`/job/` and a segment for every segment of the job path, then `/build`. -/
def specTriggerURL (base : String) (segments : List String) : String :=
  base ++ segments.foldr (fun seg rest => "/job/" ++ seg ++ rest) "/build"

/-- The `Authorization` header the specification asks for: HTTP Basic
credentials of the client's user name and token. -/
def specAuthorization (c : Client) : String :=
  "Basic " ++ base64StdEncode (c.username ++ ":" ++ c.token)

/-- A transport that answers every request with the same response. -/
def fixedServer (resp : Response) : HTTPClient :=
  { Do := fun _ => .ok resp }

/-- A transport that fails on every request. -/
def downServer : HTTPClient :=
  { Do := fun _ => .err "dial tcp: connection refused" }

/-- A transport that answers a POST with `trigger` and any other request with
`queueItem`. -/
def jenkinsServer (trigger queueItem : Response) : HTTPClient :=
  { Do := fun req => if req.Method = "POST" then .ok trigger else .ok queueItem }

/-- The transport `h` with every response status replaced through `f`. -/
def withStatus (f : Nat → Nat) (h : HTTPClient) : HTTPClient :=
  { Do := fun req =>
      match h.Do req with
      | .ok resp => .ok { resp with StatusCode := f resp.StatusCode }
      | .err e => .err e }

/-- A client for `http://x` with credentials `user` / `token`. -/
def exampleClient (h : HTTPClient) : Client :=
  { baseURL := "http://x", username := "user", token := "token", httpClient := h }

/-- A response with the given status, a `Location` header and an empty body. -/
def located (status : Nat) (location : String) : Response :=
  { StatusCode := status, Header := [("Location", [location])], Body := .data "" }

/-- A `200` response without headers and with the given body. -/
def okBody (body : String) : Response :=
  { StatusCode := 200, Header := [], Body := .data body }

/-- The build body `{"building":false,"result":"FAILURE"}`. -/
def failedBuildBody : String := "\x7b\"building\":false,\"result\":\"FAILURE\"\x7d"

/-- The build body `{"building":true,"result":null}`. -/
def runningBuildBody : String := "\x7b\"building\":true,\"result\":null\x7d"

/-- The build body `{"result":"SUCCESS"}`, without a `building` member. -/
def resultOnlyBody : String := "\x7b\"result\":\"SUCCESS\"\x7d"

/-- The empty object `{}`. -/
def emptyObjectBody : String := "\x7b\x7d"

/-- The queue-item body `{"executable":{"url":"http://x/job/a/5/"}}`. -/
def resolvedItemBody : String :=
  "\x7b\"executable\":\x7b\"url\":\"http://x/job/a/5/\"\x7d\x7d"

/-- The queue-item body `{"executable":null}` of a pending item. -/
def pendingItemBody : String := "\x7b\"executable\":null\x7d"

/-- A queue-item body that is not JSON. -/
def brokenItemBody : String := "<html>"

/-! ## Effects of the operations, step by step -/

theorem request_out (L : Lib) (c : Client) (method URL : String) (body : Option String) :
    (c.request L method URL body).out =
      .ret (match L.NewRequest method URL with
        | some e => .err e
        | none => c.httpClient.Do
            { Method := method, URL := URL, Body := body,
              Authorization := some ("Basic " ++ basicAuth c.username c.token) }) := by
  unfold Client.request
  cases L.NewRequest method URL <;> simp [pure, Request.SetBasicAuth]

theorem request_sent (L : Lib) (c : Client) (method URL : String) (body : Option String) :
    (c.request L method URL body).sent =
      match L.NewRequest method URL with
      | some _ => []
      | none =>
        [{ Method := method, URL := URL, Body := body,
           Authorization := some ("Basic " ++ basicAuth c.username c.token) }] := by
  unfold Client.request
  cases L.NewRequest method URL <;> simp [pure, Request.SetBasicAuth]

theorem request_accepted (L : Lib) (c : Client) (method URL : String) (body : Option String)
    (resp : Response) (h : (c.request L method URL body).out = .ret (.ok resp)) :
    L.NewRequest method URL = none := by
  rw [request_out] at h
  cases hn : L.NewRequest method URL with
  | none => rfl
  | some e => rw [hn] at h; simp at h

theorem BuildStatus_out (L : Lib) (c : Client) (buildURL : String) :
    (c.BuildStatus L buildURL).out =
      match (c.request L "GET" (buildURL ++ "/api/json") none).out with
      | .ret (.ok resp) =>
        match resp.Body with
        | .data body =>
          match L.UnmarshalBuild body with
          | .ok b =>
            match b.Building with
            | some true => .ret (.BuildRunning, .BuildUnknown)
            | some false => .ret (.BuildComplete, .BuildSuccess)
            | none => .panic .nilDereference
          | .err e => .fatal e
        | .failed e => .fatal e
      | .ret (.err e) => .fatal e
      | .fatal e => .fatal e
      | .panic p => .panic p := by
  unfold Client.BuildStatus
  simp only [bind, Run.bind, pure]
  cases h : (c.request L "GET" (buildURL ++ "/api/json") none).out with
  | ret r =>
    cases r with
    | ok resp =>
      simp only [logError, ReadAll, pure]
      cases hb : resp.Body with
      | data body =>
        simp only
        cases hu : L.UnmarshalBuild body with
        | ok b =>
          simp only [deref]
          cases hB : b.Building with
          | none => simp
          | some x => cases x <;> simp [pure]
        | err e => simp
      | failed e => simp
    | err e => simp [logError]
  | fatal e => simp
  | panic p => simp

theorem BuildStatus_sent (L : Lib) (c : Client) (buildURL : String) :
    (c.BuildStatus L buildURL).sent = (c.request L "GET" (buildURL ++ "/api/json") none).sent := by
  unfold Client.BuildStatus
  simp only [bind, Run.bind, pure]
  cases h : (c.request L "GET" (buildURL ++ "/api/json") none).out with
  | ret r =>
    cases r with
    | ok resp =>
      simp only [logError, ReadAll, pure]
      cases hb : resp.Body with
      | data body =>
        simp only
        cases hu : L.UnmarshalBuild body with
        | ok b =>
          simp only [deref]
          cases hB : b.Building with
          | none => simp
          | some x => cases x <;> simp [pure]
        | err e => simp
      | failed e => simp
    | err e => simp [logError]
  | fatal e => simp
  | panic p => simp

theorem getBuildURL_out (L : Lib) (c : Client) (itemURL : String) :
    (c.getBuildURL L itemURL).out =
      match (c.request L "GET" (itemURL ++ "/api/json") none).out with
      | .ret (.ok resp) =>
        match resp.Body with
        | .data body =>
          match L.UnmarshalQueueItem body with
          | .ok q =>
            match q.Executable with
            | some exe => .ret exe.URL
            | none => .panic .nilDereference
          | .err e => .fatal e
        | .failed e => .fatal e
      | .ret (.err e) => .fatal e
      | .fatal e => .fatal e
      | .panic p => .panic p := by
  unfold Client.getBuildURL
  simp only [bind, Run.bind, pure]
  cases h : (c.request L "GET" (itemURL ++ "/api/json") none).out with
  | ret r =>
    cases r with
    | ok resp =>
      simp only [logError, ReadAll, pure]
      cases hb : resp.Body with
      | data body =>
        simp only
        cases hu : L.UnmarshalQueueItem body with
        | ok q =>
          simp only [deref]
          cases hB : q.Executable with
          | none => simp
          | some x => simp [pure]
        | err e => simp
      | failed e => simp
    | err e => simp [logError]
  | fatal e => simp
  | panic p => simp

theorem getBuildURL_sent (L : Lib) (c : Client) (itemURL : String) :
    (c.getBuildURL L itemURL).sent = (c.request L "GET" (itemURL ++ "/api/json") none).sent := by
  unfold Client.getBuildURL
  simp only [bind, Run.bind, pure]
  cases h : (c.request L "GET" (itemURL ++ "/api/json") none).out with
  | ret r =>
    cases r with
    | ok resp =>
      simp only [logError, ReadAll, pure]
      cases hb : resp.Body with
      | data body =>
        simp only
        cases hu : L.UnmarshalQueueItem body with
        | ok q =>
          simp only [deref]
          cases hB : q.Executable with
          | none => simp
          | some x => simp [pure]
        | err e => simp
      | failed e => simp
    | err e => simp [logError]
  | fatal e => simp
  | panic p => simp

theorem BuildJob_out (L : Lib) (c : Client) (jobPath : String) :
    (c.BuildJob L jobPath).out =
      match (c.request L "POST" (c.apiJobPath jobPath) none).out with
      | .ret (.ok resp) =>
        match headerIndex resp.Header "Location" with
        | itemURL :: _ => (c.getBuildURL L itemURL).out
        | [] => .panic .indexOutOfRange
      | .ret (.err e) => .fatal e
      | .fatal e => .fatal e
      | .panic p => .panic p := by
  unfold Client.BuildJob
  simp only [bind, Run.bind, pure]
  cases h : (c.request L "POST" (c.apiJobPath jobPath) none).out with
  | ret r =>
    cases r with
    | ok resp =>
      simp only [logError, pure, sliceIndex]
      cases hl : headerIndex resp.Header "Location" with
      | nil => simp
      | cons itemURL rest =>
        simp only [List.get?]
    | err e => simp [logError]
  | fatal e => simp
  | panic p => simp

theorem BuildJob_sent (L : Lib) (c : Client) (jobPath : String) :
    (c.BuildJob L jobPath).sent =
      (c.request L "POST" (c.apiJobPath jobPath) none).sent ++
        match (c.request L "POST" (c.apiJobPath jobPath) none).out with
        | .ret (.ok resp) =>
          match headerIndex resp.Header "Location" with
          | itemURL :: _ => (c.getBuildURL L itemURL).sent
          | [] => []
        | _ => [] := by
  unfold Client.BuildJob
  simp only [bind, Run.bind, pure]
  cases h : (c.request L "POST" (c.apiJobPath jobPath) none).out with
  | ret r =>
    cases r with
    | ok resp =>
      simp only [logError, pure, sliceIndex]
      cases hl : headerIndex resp.Header "Location" with
      | nil => simp
      | cons itemURL rest =>
        simp only [List.get?]
        cases (c.getBuildURL L itemURL).out <;> simp
    | err e => simp [logError]
  | fatal e => simp
  | panic p => simp

/-! ## Splitting, joining and counting -/

theorem splitChars_ne_nil (sep : Char) (cs : List Char) : splitChars sep cs ≠ [] := by
  induction cs with
  | nil => simp [splitChars]
  | cons c cs ih =>
    unfold splitChars
    split
    · simp
    · split <;> simp

theorem splitChars_no_sep (sep : Char) (cs : List Char) :
    ∀ seg ∈ splitChars sep cs, sep ∉ seg := by
  induction cs with
  | nil => simp [splitChars]
  | cons c cs ih =>
    unfold splitChars
    split
    · intro seg hseg
      rcases List.mem_cons.mp hseg with h | h
      · subst h; simp
      · exact ih seg h
    · rename_i hc
      split
      · rename_i seg rest heq
        rw [heq] at ih
        intro s hs
        rcases List.mem_cons.mp hs with h | h
        · subst h
          have := ih seg (List.mem_cons_self _ _)
          simp only [List.mem_cons, not_or]
          exact ⟨fun h => hc h.symm, this⟩
        · exact ih s (List.mem_cons_of_mem _ h)
      · intro s hs
        simp only [List.mem_singleton] at hs
        subst hs
        simp only [List.mem_singleton]
        exact fun h => hc h.symm

/-- Joining the pieces with the separator gives the input back (on lists). -/
theorem splitChars_intercalate (sep : Char) (cs : List Char) :
    [sep].intercalate (splitChars sep cs) = cs := by
  induction cs with
  | nil => simp [splitChars, List.intercalate]
  | cons c cs ih =>
    unfold splitChars
    split
    · rename_i hc
      have hne := splitChars_ne_nil sep cs
      cases hs : splitChars sep cs with
      | nil => exact absurd hs hne
      | cons seg rest =>
        rw [hs] at ih
        simp only [List.intercalate, List.intersperse] at ih ⊢
        rw [hc, ← ih]
        simp
    · split
      · rename_i seg rest heq
        rw [heq] at ih
        cases rest with
        | nil =>
          simp only [List.intercalate, List.intersperse] at ih ⊢
          rw [← ih]
          simp
        | cons r rs =>
          simp only [List.intercalate, List.intersperse] at ih ⊢
          rw [← ih]
          simp
      · rename_i heq
        exact absurd heq (splitChars_ne_nil sep cs)

theorem Split_ne_nil (s : String) (sep : Char) : Split s sep ≠ [] := by
  simp [Split, splitChars_ne_nil]

theorem Join_data (segs : List (List Char)) (sep : String) :
    (Join (segs.map String.mk) sep).data = sep.data.intercalate segs := by
  induction segs with
  | nil => simp [Join, List.intercalate]
  | cons a rest ih =>
    cases rest with
    | nil => simp [Join, List.intercalate]
    | cons b rest =>
      simp only [List.map, Join, String.data_append]
      simp only [List.map] at ih
      rw [ih]
      simp [List.intercalate, List.intersperse]

/-- Joining the pieces of `Split` with the separator gives the string back. -/
theorem Join_Split (s : String) (sep : Char) : Join (Split s sep) (String.mk [sep]) = s := by
  apply String.ext
  rw [Split, Join_data]
  exact splitChars_intercalate sep s.data

theorem Join_foldr (sep tail : String) (segs : List String) (h : segs ≠ []) :
    sep ++ Join segs sep ++ tail = segs.foldr (fun s rest => sep ++ s ++ rest) tail := by
  induction segs with
  | nil => exact absurd rfl h
  | cons a rest ih =>
    cases rest with
    | nil => simp [Join]
    | cons b rest =>
      have := ih (by simp)
      simp only [Join, List.foldr] at this ⊢
      rw [← this]
      simp [String.append_assoc]

/-! ## Counting `/job/` -/

theorem countFrom_cons (pat : List Char) (c : Char) (cs : List Char) :
    countFrom pat 0 (c :: cs) =
      if pat.isPrefixOf (c :: cs) then 1 + countFrom pat (pat.length - 1) cs
      else countFrom pat 0 cs := by
  simp [countFrom]

theorem countFrom_skip_noslash (seg t : List Char) (h : '/' ∉ seg) :
    countFrom jobPat 0 (seg ++ t) = countFrom jobPat 0 t := by
  induction seg with
  | nil => rfl
  | cons c cs ih =>
    simp only [List.mem_cons, not_or] at h
    have hc : ¬ '/' = c := h.1
    rw [List.cons_append, countFrom_cons]
    have : jobPat.isPrefixOf (c :: (cs ++ t)) = false := by
      simp [jobPat, List.isPrefixOf, hc]
    rw [this]
    simpa using ih h.2

theorem countFrom_pat (t : List Char) :
    countFrom jobPat 0 (jobPat ++ t) = 1 + countFrom jobPat 0 t := by
  simp [jobPat, countFrom, List.isPrefixOf]

theorem countFrom_build : countFrom jobPat 0 "/build".data = 0 := by decide

/-- The pattern cannot start inside `b` and run into an inserted separator
unless `b` followed by a slash already holds it. -/
theorem isPrefixOf_straddle (b t : List Char) (h : jobPat.isPrefixOf (b ++ ['/']) = false)
    (hb : b ≠ []) : jobPat.isPrefixOf (b ++ jobPat ++ t) = false := by
  rcases b with _ | ⟨c0, _ | ⟨c1, _ | ⟨c2, _ | ⟨c3, _ | ⟨c4, b⟩⟩⟩⟩⟩
  · exact absurd rfl hb
  all_goals simp [jobPat, List.isPrefixOf] at h ⊢
  all_goals (intros; apply h <;> assumption)

theorem countFrom_base (b t : List Char) (h : countFrom jobPat 0 (b ++ ['/']) = 0) :
    countFrom jobPat 0 (b ++ jobPat ++ t) = 1 + countFrom jobPat 0 t := by
  induction b with
  | nil => exact countFrom_pat t
  | cons c b ih =>
    rw [List.cons_append, countFrom_cons] at h
    have hp : jobPat.isPrefixOf (c :: (b ++ ['/'])) = false := by
      by_contra hp
      simp only [Bool.not_eq_false] at hp
      rw [hp] at h
      simp at h
    have hp2 := isPrefixOf_straddle (c :: b) t hp (by simp)
    rw [hp] at h
    rw [List.cons_append, List.cons_append, countFrom_cons]
    rw [List.cons_append, List.cons_append] at hp2
    rw [hp2]
    simpa using ih (by simpa using h)

/-! ## The claims -/

/-- C1: whenever the build response decodes with `building` false, whatever
its `result` field holds, `BuildStatus` returns `(BuildComplete, BuildSuccess)`
and no pair with `BuildFail`. -/
theorem BuildStatus_complete_success (L : Lib) (c : Client) (buildURL : String)
    (resp : Response) (body : String) (result : Option String)
    (hreq : (c.request L "GET" (buildURL ++ "/api/json") none).out = .ret (.ok resp))
    (hbody : resp.Body = .data body)
    (hdec : L.UnmarshalBuild body = .ok { Building := some false, Result := result }) :
    (c.BuildStatus L buildURL).out = .ret (.BuildComplete, .BuildSuccess) ∧
      ∀ st, (c.BuildStatus L buildURL).out ≠ .ret (st, .BuildFail) := by
  have h : (c.BuildStatus L buildURL).out = .ret (.BuildComplete, .BuildSuccess) := by
    rw [BuildStatus_out, hreq]
    simp [hbody, hdec]
  refine ⟨h, fun st hst => ?_⟩
  rw [h] at hst
  simp at hst

/-- C1 at the body `{"building":false,"result":"FAILURE"}`: the model of
`encoding/json` decodes it with `building` false and result `FAILURE`, and
`BuildStatus` returns `(BuildComplete, BuildSuccess)`. -/
theorem BuildStatus_complete_success_on_failure :
    unmarshalBuild failedBuildBody = .ok { Building := some false, Result := some "FAILURE" } ∧
      ((exampleClient (fixedServer (okBody failedBuildBody))).BuildStatus exampleLib
        "http://x/job/a/5/").out = .ret (.BuildComplete, .BuildSuccess) :=
  ⟨by decide,
    (BuildStatus_complete_success exampleLib (exampleClient (fixedServer (okBody failedBuildBody)))
      "http://x/job/a/5/" (okBody failedBuildBody) failedBuildBody (some "FAILURE")
      (by decide) rfl (by decide)).1⟩

/-- C2: whenever the build response decodes with `building` true, whatever its
`result` field holds, `BuildStatus` returns `(BuildRunning, BuildUnknown)`. -/
theorem BuildStatus_running_unknown (L : Lib) (c : Client) (buildURL : String)
    (resp : Response) (body : String) (result : Option String)
    (hreq : (c.request L "GET" (buildURL ++ "/api/json") none).out = .ret (.ok resp))
    (hbody : resp.Body = .data body)
    (hdec : L.UnmarshalBuild body = .ok { Building := some true, Result := result }) :
    (c.BuildStatus L buildURL).out = .ret (.BuildRunning, .BuildUnknown) := by
  rw [BuildStatus_out, hreq]
  simp [hbody, hdec]

/-- C2 at the body `{"building":true,"result":null}`. -/
theorem BuildStatus_running_unknown_on_null_result :
    unmarshalBuild runningBuildBody = .ok { Building := some true, Result := none } ∧
      ((exampleClient (fixedServer (okBody runningBuildBody))).BuildStatus exampleLib
        "http://x/job/a/5/").out = .ret (.BuildRunning, .BuildUnknown) :=
  ⟨by decide,
    BuildStatus_running_unknown exampleLib (exampleClient (fixedServer (okBody runningBuildBody)))
      "http://x/job/a/5/" (okBody runningBuildBody) runningBuildBody none
      (by decide) rfl (by decide)⟩

/-- C10: `BuildStatus` returns a pair exactly when the request yields a
response, its body is read and decodes, and the decoded `building` pointer is
not nil; the pair is then `(BuildRunning, BuildUnknown)` for true and
`(BuildComplete, BuildSuccess)` for false.  When the body decodes with
`building` nil the call ends in a nil-dereference panic. -/
theorem BuildStatus_returns_iff (L : Lib) (c : Client) (buildURL : String) :
    (∀ p, (c.BuildStatus L buildURL).out = .ret p ↔
      ∃ resp body building result,
        (c.request L "GET" (buildURL ++ "/api/json") none).out = .ret (.ok resp) ∧
        resp.Body = .data body ∧
        L.UnmarshalBuild body = .ok { Building := some building, Result := result } ∧
        p = if building then (.BuildRunning, .BuildUnknown)
          else (.BuildComplete, .BuildSuccess)) ∧
    (∀ resp body result,
      (c.request L "GET" (buildURL ++ "/api/json") none).out = .ret (.ok resp) →
      resp.Body = .data body →
      L.UnmarshalBuild body = .ok { Building := none, Result := result } →
      (c.BuildStatus L buildURL).out = .panic .nilDereference) ∧
    (∀ p, (c.BuildStatus L buildURL).out = .ret p →
      p = (.BuildRunning, .BuildUnknown) ∨ p = (.BuildComplete, .BuildSuccess)) := by
  have key : ∀ p, (c.BuildStatus L buildURL).out = .ret p →
      ∃ resp body building result,
        (c.request L "GET" (buildURL ++ "/api/json") none).out = .ret (.ok resp) ∧
        resp.Body = .data body ∧
        L.UnmarshalBuild body = .ok { Building := some building, Result := result } ∧
        p = if building then (.BuildRunning, .BuildUnknown)
          else (.BuildComplete, .BuildSuccess) := by
    intro p hp
    rw [BuildStatus_out] at hp
    cases hreq : (c.request L "GET" (buildURL ++ "/api/json") none).out with
    | ret r =>
      cases r with
      | ok resp =>
        rw [hreq] at hp
        simp only at hp
        cases hb : resp.Body with
        | data body =>
          rw [hb] at hp
          simp only at hp
          cases hu : L.UnmarshalBuild body with
          | ok b =>
            rw [hu] at hp
            simp only at hp
            obtain ⟨building, result⟩ := b
            cases building with
            | none => simp at hp
            | some x =>
              refine ⟨resp, body, x, result, rfl, hb, hu, ?_⟩
              cases x <;> simp at hp <;> simp [hp]
          | err e => rw [hu] at hp; simp at hp
        | failed e => rw [hb] at hp; simp at hp
      | err e => rw [hreq] at hp; simp at hp
    | fatal e => rw [hreq] at hp; simp at hp
    | panic q => rw [hreq] at hp; simp at hp
  refine ⟨fun p => ⟨key p, ?_⟩, ?_, ?_⟩
  · rintro ⟨resp, body, building, result, hreq, hb, hu, rfl⟩
    rw [BuildStatus_out, hreq]
    cases building <;> simp [hb, hu]
  · intro resp body result hreq hb hu
    rw [BuildStatus_out, hreq]
    simp [hb, hu]
  · intro p hp
    obtain ⟨_, _, building, _, _, _, _, rfl⟩ := key p hp
    cases building <;> simp

/-- C10 at the bodies `{}` and `{"result":"SUCCESS"}`: both decode with a nil
`building` pointer and `BuildStatus` panics on the dereference. -/
theorem BuildStatus_panics_without_building :
    unmarshalBuild emptyObjectBody = .ok { Building := none, Result := none } ∧
    ((exampleClient (fixedServer (okBody emptyObjectBody))).BuildStatus exampleLib
      "http://x/job/a/5/").out = .panic .nilDereference ∧
    unmarshalBuild resultOnlyBody = .ok { Building := none, Result := some "SUCCESS" } ∧
    ((exampleClient (fixedServer (okBody resultOnlyBody))).BuildStatus exampleLib
      "http://x/job/a/5/").out = .panic .nilDereference :=
  ⟨by decide,
    (BuildStatus_returns_iff exampleLib (exampleClient (fixedServer (okBody emptyObjectBody)))
      "http://x/job/a/5/").2.1 (okBody emptyObjectBody) emptyObjectBody none
      (by decide) rfl (by decide),
    by decide,
    (BuildStatus_returns_iff exampleLib (exampleClient (fixedServer (okBody resultOnlyBody)))
      "http://x/job/a/5/").2.1 (okBody resultOnlyBody) resultOnlyBody (some "SUCCESS")
      (by decide) rfl (by decide)⟩

/-- C6: when the queue-item response decodes with an `executable` whose `url`
is `u`, `getBuildURL` returns `u` unchanged; and `BuildJob`, whose trigger
response names that queue item in its `Location` header, returns the same
`u`. -/
theorem getBuildURL_returns_executable_url (L : Lib) (c : Client) :
    (∀ itemURL resp body u,
      (c.request L "GET" (itemURL ++ "/api/json") none).out = .ret (.ok resp) →
      resp.Body = .data body →
      L.UnmarshalQueueItem body = .ok { Executable := some { URL := u } } →
      (c.getBuildURL L itemURL).out = .ret u) ∧
    (∀ jobPath trigger itemURL rest resp body u,
      (c.request L "POST" (c.apiJobPath jobPath) none).out = .ret (.ok trigger) →
      headerIndex trigger.Header "Location" = itemURL :: rest →
      (c.request L "GET" (itemURL ++ "/api/json") none).out = .ret (.ok resp) →
      resp.Body = .data body →
      L.UnmarshalQueueItem body = .ok { Executable := some { URL := u } } →
      (c.BuildJob L jobPath).out = .ret u) := by
  have h1 : ∀ itemURL resp body u,
      (c.request L "GET" (itemURL ++ "/api/json") none).out = .ret (.ok resp) →
      resp.Body = .data body →
      L.UnmarshalQueueItem body = .ok { Executable := some { URL := u } } →
      (c.getBuildURL L itemURL).out = .ret u := by
    intro itemURL resp body u hreq hb hu
    rw [getBuildURL_out, hreq]
    simp [hb, hu]
  refine ⟨h1, ?_⟩
  intro jobPath trigger itemURL rest resp body u htrig hloc hreq hb hu
  rw [BuildJob_out, htrig]
  simp only [hloc]
  exact h1 itemURL resp body u hreq hb hu

/-- C6 at the body `{"executable":{"url":"http://x/job/a/5/"}}`: `getBuildURL`
and `BuildJob` both return `http://x/job/a/5/`. -/
theorem getBuildURL_returns_executable_url_example :
    unmarshalQueueItem resolvedItemBody =
      .ok { Executable := some { URL := "http://x/job/a/5/" } } ∧
    ((exampleClient (jenkinsServer (located 201 "http://x/queue/item/1/")
        (okBody resolvedItemBody))).getBuildURL exampleLib "http://x/queue/item/1/").out =
      .ret "http://x/job/a/5/" ∧
    ((exampleClient (jenkinsServer (located 201 "http://x/queue/item/1/")
        (okBody resolvedItemBody))).BuildJob exampleLib "folder/job").out =
      .ret "http://x/job/a/5/" :=
  ⟨by decide,
    (getBuildURL_returns_executable_url exampleLib
      (exampleClient (jenkinsServer (located 201 "http://x/queue/item/1/")
        (okBody resolvedItemBody)))).1
      "http://x/queue/item/1/" (okBody resolvedItemBody) resolvedItemBody "http://x/job/a/5/"
      (by decide) rfl (by decide),
    (getBuildURL_returns_executable_url exampleLib
      (exampleClient (jenkinsServer (located 201 "http://x/queue/item/1/")
        (okBody resolvedItemBody)))).2
      "folder/job" (located 201 "http://x/queue/item/1/") "http://x/queue/item/1/" []
      (okBody resolvedItemBody) resolvedItemBody "http://x/job/a/5/"
      (by decide) (by decide) (by decide) rfl (by decide)⟩

/-- C9: when the queue-item response decodes but its `executable` pointer is
nil (the member is absent or `null`), `getBuildURL` ends in a nil-dereference
panic and returns no string. -/
theorem getBuildURL_pending_panics (L : Lib) (c : Client) (itemURL : String)
    (resp : Response) (body : String)
    (hreq : (c.request L "GET" (itemURL ++ "/api/json") none).out = .ret (.ok resp))
    (hbody : resp.Body = .data body)
    (hdec : L.UnmarshalQueueItem body = .ok { Executable := none }) :
    (c.getBuildURL L itemURL).out = .panic .nilDereference ∧
      ∀ s, (c.getBuildURL L itemURL).out ≠ .ret s := by
  have h : (c.getBuildURL L itemURL).out = .panic .nilDereference := by
    rw [getBuildURL_out, hreq]
    simp [hbody, hdec]
  refine ⟨h, fun s hs => ?_⟩
  rw [h] at hs
  simp at hs

/-- C9 at the bodies `{"executable":null}` and `{}`: both decode with a nil
`executable` and `getBuildURL` panics. -/
theorem getBuildURL_pending_panics_example :
    unmarshalQueueItem pendingItemBody = .ok { Executable := none } ∧
    ((exampleClient (fixedServer (okBody pendingItemBody))).getBuildURL exampleLib
      "http://x/queue/item/1/").out = .panic .nilDereference ∧
    unmarshalQueueItem emptyObjectBody = .ok { Executable := none } ∧
    ((exampleClient (fixedServer (okBody emptyObjectBody))).getBuildURL exampleLib
      "http://x/queue/item/1/").out = .panic .nilDereference :=
  ⟨by decide,
    (getBuildURL_pending_panics exampleLib (exampleClient (fixedServer (okBody pendingItemBody)))
      "http://x/queue/item/1/" (okBody pendingItemBody) pendingItemBody
      (by decide) rfl (by decide)).1,
    by decide,
    (getBuildURL_pending_panics exampleLib (exampleClient (fixedServer (okBody emptyObjectBody)))
      "http://x/queue/item/1/" (okBody emptyObjectBody) emptyObjectBody
      (by decide) rfl (by decide)).1⟩

/-- C8: every request that `request`, `BuildJob`, `getBuildURL` and
`BuildStatus` hand to the transport carries the `Authorization` header of HTTP
Basic credentials made of the client's user name and token, whatever the
method, URL and body. -/
theorem requests_carry_basic_auth (L : Lib) (c : Client) :
    (∀ method URL body, ∀ req ∈ (c.request L method URL body).sent,
      req.Authorization = some (specAuthorization c)) ∧
    (∀ jobPath, ∀ req ∈ (c.BuildJob L jobPath).sent,
      req.Authorization = some (specAuthorization c)) ∧
    (∀ itemURL, ∀ req ∈ (c.getBuildURL L itemURL).sent,
      req.Authorization = some (specAuthorization c)) ∧
    (∀ buildURL, ∀ req ∈ (c.BuildStatus L buildURL).sent,
      req.Authorization = some (specAuthorization c)) := by
  have h1 : ∀ method URL body, ∀ req ∈ (c.request L method URL body).sent,
      req.Authorization = some (specAuthorization c) := by
    intro method URL body req hreq
    rw [request_sent] at hreq
    cases hn : L.NewRequest method URL with
    | some e => rw [hn] at hreq; simp at hreq
    | none =>
      rw [hn] at hreq
      simp only [List.mem_singleton] at hreq
      subst hreq
      rfl
  have h3 : ∀ itemURL, ∀ req ∈ (c.getBuildURL L itemURL).sent,
      req.Authorization = some (specAuthorization c) := by
    intro itemURL req hreq
    rw [getBuildURL_sent] at hreq
    exact h1 _ _ _ req hreq
  refine ⟨h1, ?_, h3, ?_⟩
  · intro jobPath req hreq
    rw [BuildJob_sent, List.mem_append] at hreq
    rcases hreq with h | h
    · exact h1 _ _ _ req h
    · cases hr : (c.request L "POST" (c.apiJobPath jobPath) none).out with
      | ret r =>
        rw [hr] at h
        cases r with
        | ok resp =>
          simp only at h
          cases hl : headerIndex resp.Header "Location" with
          | nil => rw [hl] at h; simp at h
          | cons itemURL rest => rw [hl] at h; exact h3 itemURL req h
        | err e => simp at h
      | fatal e => rw [hr] at h; simp at h
      | panic p => rw [hr] at h; simp at h
  · intro buildURL req hreq
    rw [BuildStatus_sent] at hreq
    exact h1 _ _ _ req hreq

/-- C8 on a concrete run: both requests of `BuildJob` carry
`Authorization: Basic dXNlcjp0b2tlbg==`, the encoding of `user:token`. -/
theorem requests_carry_basic_auth_example :
    specAuthorization (exampleClient (jenkinsServer (located 201 "http://x/queue/item/1/")
      (okBody resolvedItemBody))) = "Basic dXNlcjp0b2tlbg==" ∧
    ((exampleClient (jenkinsServer (located 201 "http://x/queue/item/1/")
      (okBody resolvedItemBody))).BuildJob exampleLib "folder/job").sent.length = 2 ∧
    ∀ req ∈ ((exampleClient (jenkinsServer (located 201 "http://x/queue/item/1/")
      (okBody resolvedItemBody))).BuildJob exampleLib "folder/job").sent,
      req.Authorization = some "Basic dXNlcjp0b2tlbg==" :=
  ⟨by decide, by decide,
    (requests_carry_basic_auth exampleLib (exampleClient (jenkinsServer
      (located 201 "http://x/queue/item/1/") (okBody resolvedItemBody)))).2.1 "folder/job"⟩

/-- C3: the trigger URL of `BuildJob` is the base URL followed by `/job/` and
a segment for each of the slash-separated segments of the job path, then
`/build`; the first request `BuildJob` hands to the transport is the POST of
that URL with no body (it is handed over whenever `http.NewRequest` accepts the
URL, and nothing is sent otherwise). -/
theorem BuildJob_posts_to_trigger_URL (L : Lib) (c : Client) (jobPath : String) :
    c.apiJobPath jobPath = specTriggerURL c.baseURL (Split jobPath '/') ∧
    (c.BuildJob L jobPath).sent.head? =
      match L.NewRequest "POST" (specTriggerURL c.baseURL (Split jobPath '/')) with
      | some _ => none
      | none => some
          { Method := "POST"
            URL := specTriggerURL c.baseURL (Split jobPath '/')
            Body := none
            Authorization := some (specAuthorization c) } := by
  have hurl : c.apiJobPath jobPath = specTriggerURL c.baseURL (Split jobPath '/') := by
    unfold Client.apiJobPath specTriggerURL
    rw [← Join_foldr "/job/" "/build" (Split jobPath '/') (Split_ne_nil jobPath '/')]
    simp [String.append_assoc]
  refine ⟨hurl, ?_⟩
  rw [BuildJob_sent, request_sent, request_out, hurl]
  cases hn : L.NewRequest "POST" (specTriggerURL c.baseURL (Split jobPath '/')) with
  | some e => simp
  | none => simp [specAuthorization, basicAuth]

/-- C3 on the job path `folder/job`: its segments are `folder` and `job`, and
the first request is the POST of `http://x/job/folder/job/job/build`. -/
theorem BuildJob_posts_to_trigger_URL_example :
    Split "folder/job" '/' = ["folder", "job"] ∧
    ((exampleClient downServer).BuildJob exampleLib "folder/job").sent.head? =
      some { Method := "POST", URL := "http://x/job/folder/job/job/build", Body := none,
             Authorization := some "Basic dXNlcjp0b2tlbg==" } :=
  ⟨by decide, (BuildJob_posts_to_trigger_URL exampleLib (exampleClient downServer) "folder/job").2⟩

theorem countFrom_intercalate (segs : List (List Char)) (hne : segs ≠ [])
    (hs : ∀ seg ∈ segs, '/' ∉ seg) :
    countFrom jobPat 0 (jobPat.intercalate segs ++ "/build".data) = segs.length - 1 := by
  induction segs with
  | nil => exact absurd rfl hne
  | cons a rest ih =>
    cases rest with
    | nil =>
      simp only [List.intercalate, List.intersperse, List.flatten, List.append_nil,
        List.length_singleton, Nat.sub_self]
      rw [countFrom_skip_noslash a _ (hs a (List.mem_cons_self _ _))]
      exact countFrom_build
    | cons b rest =>
      have ih := ih (by simp) (fun seg h => hs seg (List.mem_cons_of_mem _ h))
      have : jobPat.intercalate (a :: b :: rest) ++ "/build".data =
          a ++ (jobPat ++ (jobPat.intercalate (b :: rest) ++ "/build".data)) := by
        simp [List.intercalate, List.intersperse]
      rw [this, countFrom_skip_noslash a _ (hs a (List.mem_cons_self _ _)), countFrom_pat, ih]
      simp only [List.length_cons]
      omega

/-- C4 (amended): when the base URL followed by a slash holds no `/job/` —
the base URL neither contains `/job/` nor ends in `/job` — the trigger URL of a
job path with N slash-separated segments contains exactly N non-overlapping
occurrences of `/job/` (the count of `strings.Count`). -/
theorem trigger_URL_job_count (c : Client) (jobPath : String)
    (hbase : Count (c.baseURL ++ "/") "/job/" = 0) :
    Count (c.apiJobPath jobPath) "/job/" = (Split jobPath '/').length := by
  have hpat : "/job/".data = jobPat := rfl
  have hpat_ne : ¬ jobPat = [] := by simp [jobPat]
  unfold Count at hbase ⊢
  rw [hpat] at hbase ⊢
  rw [if_neg hpat_ne] at hbase ⊢
  have hsplit : (Split jobPath '/').length = (splitChars '/' jobPath.data).length := by
    simp [Split]
  have hdata : (c.apiJobPath jobPath).data =
      c.baseURL.data ++ jobPat ++
        (jobPat.intercalate (splitChars '/' jobPath.data) ++ "/build".data) := by
    unfold Client.apiJobPath
    rw [Split]
    simp only [String.data_append, Join_data, List.append_assoc]
    rfl
  have hb : countFrom jobPat 0 (c.baseURL.data ++ ['/']) = 0 := by
    simpa [String.data_append] using hbase
  rw [hdata, countFrom_base _ _ hb,
    countFrom_intercalate _ (splitChars_ne_nil '/' _) (splitChars_no_sep '/' _), hsplit]
  have := List.length_pos.mpr (splitChars_ne_nil '/' jobPath.data)
  omega

/-- C4 (amended) on the base URL `http://x` and the job path `folder/job`. -/
theorem trigger_URL_job_count_example :
    Count ("http://x" ++ "/") "/job/" = 0 ∧
    (Split "folder/job" '/').length = 2 ∧
    Count ((exampleClient downServer).apiJobPath "folder/job") "/job/" = 2 :=
  ⟨by decide, by decide, trigger_URL_job_count (exampleClient downServer) "folder/job" (by decide)⟩

/-- C4 as stated fails: for the base URL `http://x/job/team` and the
one-segment job path `a`, the trigger URL `http://x/job/team/job/a/build`
holds two occurrences of `/job/`, counted with or without overlaps; and for
the base URL `http://x/job` and the one-segment job path `job`, the trigger URL
`http://x/job/job/job/build` holds two non-overlapping occurrences. -/
theorem trigger_URL_job_count_base_counterexample :
    (Split "a" '/').length = 1 ∧
    ({ exampleClient downServer with baseURL := "http://x/job/team" } : Client).apiJobPath "a" =
      "http://x/job/team/job/a/build" ∧
    Count "http://x/job/team/job/a/build" "/job/" = 2 ∧
    occurrences "/job/".data "http://x/job/team/job/a/build".data = 2 ∧
    (Split "job" '/').length = 1 ∧
    ({ exampleClient downServer with baseURL := "http://x/job" } : Client).apiJobPath "job" =
      "http://x/job/job/job/build" ∧
    Count "http://x/job/job/job/build" "/job/" = 2 :=
  ⟨by decide, by decide, by decide, by decide, by decide, by decide, by decide⟩

/-- C5 (amended): when the trigger response carries a `Location` header whose
first value is `itemURL`, the follow-up request of `BuildJob` is the GET of
`itemURL` followed by `/api/json`, nothing removed from either part; `BuildJob`
hands the transport exactly the trigger POST and then this GET (given that
`http.NewRequest` accepts the GET). -/
theorem BuildJob_follow_up_request (L : Lib) (c : Client) (jobPath : String)
    (trigger : Response) (itemURL : String) (rest : List String)
    (htrig : (c.request L "POST" (c.apiJobPath jobPath) none).out = .ret (.ok trigger))
    (hloc : headerIndex trigger.Header "Location" = itemURL :: rest)
    (hnew : L.NewRequest "GET" (itemURL ++ "/api/json") = none) :
    (c.BuildJob L jobPath).sent =
      [{ Method := "POST", URL := c.apiJobPath jobPath, Body := none,
         Authorization := some (specAuthorization c) },
       { Method := "GET", URL := itemURL ++ "/api/json", Body := none,
         Authorization := some (specAuthorization c) }] := by
  have hacc := request_accepted L c _ _ _ trigger htrig
  rw [BuildJob_sent, htrig]
  simp only [hloc]
  rw [getBuildURL_sent, request_sent, request_sent, hacc, hnew]
  rfl

/-- C5 (amended) at `Location: http://x/queue/item/1/`: the follow-up GET goes
to `http://x/queue/item/1//api/json`. -/
theorem BuildJob_follow_up_request_example :
    headerIndex (located 201 "http://x/queue/item/1/").Header "Location" =
      ["http://x/queue/item/1/"] ∧
    ((exampleClient (jenkinsServer (located 201 "http://x/queue/item/1/")
      (okBody resolvedItemBody))).BuildJob exampleLib "a").sent =
      [{ Method := "POST", URL := "http://x/job/a/build", Body := none,
         Authorization := some "Basic dXNlcjp0b2tlbg==" },
       { Method := "GET", URL := "http://x/queue/item/1//api/json", Body := none,
         Authorization := some "Basic dXNlcjp0b2tlbg==" }] :=
  ⟨by decide,
    BuildJob_follow_up_request exampleLib
      (exampleClient (jenkinsServer (located 201 "http://x/queue/item/1/")
        (okBody resolvedItemBody)))
      "a" (located 201 "http://x/queue/item/1/") "http://x/queue/item/1/" []
      (by decide) (by decide) rfl⟩

/-- C5 as stated fails: with `Location: http://x/queue/item/1/` the requests
of `BuildJob` are a POST and a GET of `http://x/queue/item/1//api/json`; no
request goes to `http://x/queue/item/1/api/json`. -/
theorem BuildJob_follow_up_request_counterexample :
    headerIndex (located 201 "http://x/queue/item/1/").Header "Location" =
      ["http://x/queue/item/1/"] ∧
    (((exampleClient (jenkinsServer (located 201 "http://x/queue/item/1/")
      (okBody resolvedItemBody))).BuildJob exampleLib "a").sent.map
        fun req => (req.Method, req.URL)) =
      [("POST", "http://x/job/a/build"), ("GET", "http://x/queue/item/1//api/json")] ∧
    ¬ ∃ req ∈ ((exampleClient (jenkinsServer (located 201 "http://x/queue/item/1/")
      (okBody resolvedItemBody))).BuildJob exampleLib "a").sent,
      req.URL = "http://x/queue/item/1/api/json" :=
  ⟨by decide, by decide, by decide⟩

/-- C7 (amended): `BuildJob` returns no build URL when the trigger request
fails (`log.Fatal` with that error), when the trigger response has no
`Location` value (index-out-of-range panic), or when the queue-item body does
not decode (`log.Fatal` with the decoder's error).  The status code of a
response is not among the conditions. -/
theorem BuildJob_failure_cases (L : Lib) (c : Client) (jobPath : String) :
    (∀ e, (c.request L "POST" (c.apiJobPath jobPath) none).out = .ret (.err e) →
      (c.BuildJob L jobPath).out = .fatal e) ∧
    (∀ trigger,
      (c.request L "POST" (c.apiJobPath jobPath) none).out = .ret (.ok trigger) →
      headerIndex trigger.Header "Location" = [] →
      (c.BuildJob L jobPath).out = .panic .indexOutOfRange) ∧
    (∀ trigger itemURL rest resp body e,
      (c.request L "POST" (c.apiJobPath jobPath) none).out = .ret (.ok trigger) →
      headerIndex trigger.Header "Location" = itemURL :: rest →
      (c.request L "GET" (itemURL ++ "/api/json") none).out = .ret (.ok resp) →
      resp.Body = .data body →
      L.UnmarshalQueueItem body = .err e →
      (c.BuildJob L jobPath).out = .fatal e) := by
  refine ⟨?_, ?_, ?_⟩
  · intro e h
    rw [BuildJob_out, h]
  · intro trigger h hloc
    rw [BuildJob_out, h]
    simp only [hloc]
  · intro trigger itemURL rest resp body e h hloc hreq hb hu
    rw [BuildJob_out, h]
    simp only [hloc]
    rw [getBuildURL_out, hreq]
    simp [hb, hu]

/-- C7 (amended) on concrete runs: a transport that is down, a trigger
response without `Location`, and a queue-item body that is not JSON. -/
theorem BuildJob_failure_cases_example :
    ((exampleClient downServer).BuildJob exampleLib "a").out =
      .fatal "dial tcp: connection refused" ∧
    ((exampleClient (jenkinsServer (okBody "") (okBody resolvedItemBody))).BuildJob
      exampleLib "a").out = .panic .indexOutOfRange ∧
    ((exampleClient (jenkinsServer (located 201 "http://x/queue/item/1/")
      (okBody brokenItemBody))).BuildJob exampleLib "a").out = .fatal "json: syntax error" :=
  ⟨(BuildJob_failure_cases exampleLib (exampleClient downServer) "a").1
      "dial tcp: connection refused" (by decide),
    (BuildJob_failure_cases exampleLib
      (exampleClient (jenkinsServer (okBody "") (okBody resolvedItemBody))) "a").2.1
      (okBody "") (by decide) (by decide),
    (BuildJob_failure_cases exampleLib
      (exampleClient (jenkinsServer (located 201 "http://x/queue/item/1/")
        (okBody brokenItemBody))) "a").2.2
      (located 201 "http://x/queue/item/1/") "http://x/queue/item/1/" []
      (okBody brokenItemBody) brokenItemBody "json: syntax error"
      (by decide) (by decide) (by decide) rfl (by decide)⟩

/-- C7 as stated fails: a trigger response with status 500 that carries a
`Location` header does not stop `BuildJob`, which returns the build URL of the
queue item. -/
theorem BuildJob_non_2xx_counterexample :
    (located 500 "http://x/queue/item/1/").StatusCode = 500 ∧
    ((exampleClient (jenkinsServer (located 500 "http://x/queue/item/1/")
      (okBody resolvedItemBody))).request exampleLib "POST" "http://x/job/a/build" none).out =
      .ret (.ok (located 500 "http://x/queue/item/1/")) ∧
    ((exampleClient (jenkinsServer (located 500 "http://x/queue/item/1/")
      (okBody resolvedItemBody))).BuildJob exampleLib "a").out = .ret "http://x/job/a/5/" :=
  ⟨rfl, by decide, by decide⟩

/-! ## Further properties of the client -/

theorem Run.ext_parts {α : Type} (x y : Run α) (hs : x.sent = y.sent) (ho : x.out = y.out) :
    x = y := by
  cases x; cases y; simp_all

/-- The segments `strings.Split` cuts a path into at `/`: there is at least
one, none contains a slash, and joined with `/` they give the path back. -/
theorem Split_slash_segments (jobPath : String) :
    Split jobPath '/' ≠ [] ∧
    (∀ seg ∈ Split jobPath '/', '/' ∉ seg.data) ∧
    Join (Split jobPath '/') "/" = jobPath := by
  refine ⟨Split_ne_nil jobPath '/', ?_, Join_Split jobPath '/'⟩
  intro seg hseg
  simp only [Split, List.mem_map] at hseg
  obtain ⟨cs, hcs, rfl⟩ := hseg
  exact splitChars_no_sep '/' jobPath.data cs hcs

/-- A transport error on any of the three calls ends the operation in
`log.Fatal` with that error, after the one request that met it. -/
theorem transport_error_is_fatal (L : Lib) (c : Client) (e : Error) :
    (∀ jobPath, (c.request L "POST" (c.apiJobPath jobPath) none).out = .ret (.err e) →
      (c.BuildJob L jobPath).out = .fatal e) ∧
    (∀ itemURL, (c.request L "GET" (itemURL ++ "/api/json") none).out = .ret (.err e) →
      (c.getBuildURL L itemURL).out = .fatal e) ∧
    (∀ buildURL, (c.request L "GET" (buildURL ++ "/api/json") none).out = .ret (.err e) →
      (c.BuildStatus L buildURL).out = .fatal e) ∧
    (∀ method URL body, L.NewRequest method URL = none →
      c.httpClient.Do { Method := method, URL := URL, Body := body,
                        Authorization := some (specAuthorization c) } = .err e →
      (c.request L method URL body).out = .ret (.err e)) := by
  refine ⟨?_, ?_, ?_, ?_⟩
  · intro jobPath h
    rw [BuildJob_out, h]
  · intro itemURL h
    rw [getBuildURL_out, h]
  · intro buildURL h
    rw [BuildStatus_out, h]
  · intro method URL body hn hdo
    rw [request_out, hn]
    simp only
    rw [← hdo]
    rfl

/-- With the transport down, each of the three operations ends in `log.Fatal`. -/
theorem transport_error_is_fatal_example :
    ((exampleClient downServer).BuildJob exampleLib "folder/job").out =
      .fatal "dial tcp: connection refused" ∧
    ((exampleClient downServer).getBuildURL exampleLib "http://x/queue/item/1/").out =
      .fatal "dial tcp: connection refused" ∧
    ((exampleClient downServer).BuildStatus exampleLib "http://x/job/a/5/").out =
      .fatal "dial tcp: connection refused" :=
  ⟨(transport_error_is_fatal exampleLib (exampleClient downServer) _).1 "folder/job" (by decide),
   (transport_error_is_fatal exampleLib (exampleClient downServer) _).2.1
      "http://x/queue/item/1/" (by decide),
   (transport_error_is_fatal exampleLib (exampleClient downServer) _).2.2.1
      "http://x/job/a/5/" (by decide)⟩

theorem request_withStatus (L : Lib) (c : Client) (f : Nat → Nat) (method URL : String)
    (body : Option String) :
    (({ c with httpClient := withStatus f c.httpClient } : Client).request L method URL body).sent
        = (c.request L method URL body).sent ∧
    (({ c with httpClient := withStatus f c.httpClient } : Client).request L method URL body).out
        = match (c.request L method URL body).out with
          | .ret (.ok resp) => .ret (.ok { resp with StatusCode := f resp.StatusCode })
          | o => o := by
  constructor
  · rw [request_sent, request_sent]
  · rw [request_out, request_out]
    cases L.NewRequest method URL with
    | some e => rfl
    | none =>
      simp only [withStatus]
      cases c.httpClient.Do _ <;> rfl

/-- The status code of a response is never looked at: replacing the status
codes of all responses changes neither the requests nor the outcome of any of
the three operations. -/
theorem status_code_ignored (L : Lib) (c : Client) (f : Nat → Nat) :
    (∀ buildURL, ({ c with httpClient := withStatus f c.httpClient } : Client).BuildStatus L
      buildURL = c.BuildStatus L buildURL) ∧
    (∀ itemURL, ({ c with httpClient := withStatus f c.httpClient } : Client).getBuildURL L
      itemURL = c.getBuildURL L itemURL) ∧
    (∀ jobPath, ({ c with httpClient := withStatus f c.httpClient } : Client).BuildJob L
      jobPath = c.BuildJob L jobPath) := by
  have hg : ∀ itemURL, ({ c with httpClient := withStatus f c.httpClient } : Client).getBuildURL L
      itemURL = c.getBuildURL L itemURL := by
    intro itemURL
    obtain ⟨hs, ho⟩ := request_withStatus L c f "GET" (itemURL ++ "/api/json") none
    apply Run.ext_parts
    · rw [getBuildURL_sent, getBuildURL_sent, hs]
    · rw [getBuildURL_out, getBuildURL_out, ho]
      cases (c.request L "GET" (itemURL ++ "/api/json") none).out with
      | ret r => cases r <;> rfl
      | fatal e => rfl
      | panic p => rfl
  refine ⟨?_, hg, ?_⟩
  · intro buildURL
    obtain ⟨hs, ho⟩ := request_withStatus L c f "GET" (buildURL ++ "/api/json") none
    apply Run.ext_parts
    · rw [BuildStatus_sent, BuildStatus_sent, hs]
    · rw [BuildStatus_out, BuildStatus_out, ho]
      cases (c.request L "GET" (buildURL ++ "/api/json") none).out with
      | ret r => cases r <;> rfl
      | fatal e => rfl
      | panic p => rfl
  · intro jobPath
    have hp : ({ c with httpClient := withStatus f c.httpClient } : Client).apiJobPath jobPath
        = c.apiJobPath jobPath := rfl
    obtain ⟨hs, ho⟩ := request_withStatus L c f "POST" (c.apiJobPath jobPath) none
    apply Run.ext_parts
    · rw [BuildJob_sent, BuildJob_sent, hp, hs, ho]
      cases (c.request L "POST" (c.apiJobPath jobPath) none).out with
      | ret r =>
        cases r with
        | ok resp =>
          simp only
          cases headerIndex resp.Header "Location" with
          | nil => rfl
          | cons itemURL rest => simp only [hg]
        | err e => rfl
      | fatal e => rfl
      | panic p => rfl
    · rw [BuildJob_out, BuildJob_out, hp, ho]
      cases (c.request L "POST" (c.apiJobPath jobPath) none).out with
      | ret r =>
        cases r with
        | ok resp =>
          simp only
          cases headerIndex resp.Header "Location" with
          | nil => rfl
          | cons itemURL rest => simp only [hg]
        | err e => rfl
      | fatal e => rfl
      | panic p => rfl

/-- The request of `BuildStatus`: one GET of the build URL followed by
`/api/json`, without a body, whenever `http.NewRequest` accepts that URL. -/
theorem BuildStatus_request (L : Lib) (c : Client) (buildURL : String)
    (hnew : L.NewRequest "GET" (buildURL ++ "/api/json") = none) :
    (c.BuildStatus L buildURL).sent =
      [{ Method := "GET", URL := buildURL ++ "/api/json", Body := none,
         Authorization := some (specAuthorization c) }] := by
  rw [BuildStatus_sent, request_sent, hnew]
  rfl

/-- The request of `BuildStatus` for the build URL `http://x/job/a/5/`. -/
theorem BuildStatus_request_example :
    ((exampleClient (fixedServer (okBody runningBuildBody))).BuildStatus exampleLib
      "http://x/job/a/5/").sent =
      [{ Method := "GET", URL := "http://x/job/a/5//api/json", Body := none,
         Authorization := some "Basic dXNlcjp0b2tlbg==" }] :=
  BuildStatus_request exampleLib (exampleClient (fixedServer (okBody runningBuildBody)))
    "http://x/job/a/5/" rfl

/-- The client `NewClient` builds holds the three strings as given and the
given transport, or the default transport when none is given. -/
theorem NewClient_fields (d : HTTPClient) (baseURL username token : String) (h : HTTPClient) :
    NewClient d baseURL username token (some h) =
      { baseURL := baseURL, username := username, token := token, httpClient := h } ∧
    NewClient d baseURL username token none =
      { baseURL := baseURL, username := username, token := token, httpClient := d } :=
  ⟨rfl, rfl⟩

end Jenkins
